import Mathlib

set_option maxRecDepth 100000

/-!
# Verification of the video-analysis pipeline (`src/main.py`)

Shallow embedding of the Flask video-analysis service: metadata extraction,
chunked SHA-256 hashing with progress reporting, stride-10 frame-brightness
sampling, preview extraction, and the orchestrator that writes a shared
progress record.

Embedding conventions:
* Python floats are modelled as `ℚ`.  Every claim checked here concerns
  comparisons, monotonicity and exact quotients whose truth agrees between
  `ℚ` and IEEE doubles for the values involved (quotients of byte counts
  and frame indices, brightness thresholds), so the rational model is
  faithful for these properties.
* File contents are `List Nat` (byte values).  `hashlib.sha256` is
  implemented in full (over `Nat` with explicit `% 2^32`), so digest
  values are computed, not assumed.
* Recursive definitions use structural fuel (always supplied large enough
  to cover every iteration the Python loop performs) so that closed terms
  reduce inside the kernel.
* Fallible library calls are inputs: `MediaInfo.parse` and the file open /
  read are `Except String _` (the `String` is the Python exception text),
  `cv2` frame decoding is `Nat → Option ℚ` (mean brightness of the decoded
  frame, `none` when `cap.read()` fails).
* Mutations of the shared `analysis_progress[file_id]` record are modelled
  as an explicit event trace; a record is obtained by folding the events.
-/

/-! ## SHA-256 (faithful implementation of what `hashlib.sha256` computes) -/

/-- Truncate to a 32-bit word. -/
def w32 (x : Nat) : Nat := x % 4294967296

/-- Right-rotate a 32-bit word by `n` bits. -/
def rotr32 (n x : Nat) : Nat := ((x >>> n) ||| (x <<< (32 - n))) % 4294967296

/-- The SHA-256 round constants (FIPS 180-4, here in decimal). -/
def K256 : List Nat :=
  [1116352408, 1899447441, 3049323471, 3921009573, 961987163, 1508970993,
   2453635748, 2870763221, 3624381080, 310598401, 607225278, 1426881987,
   1925078388, 2162078206, 2614888103, 3248222580, 3835390401, 4022224774,
   264347078, 604807628, 770255983, 1249150122, 1555081692, 1996064986,
   2554220882, 2821834349, 2952996808, 3210313671, 3336571891, 3584528711,
   113926993, 338241895, 666307205, 773529912, 1294757372, 1396182291,
   1695183700, 1986661051, 2177026350, 2456956037, 2730485921, 2820302411,
   3259730800, 3345764771, 3516065817, 3600352804, 4094571909, 275423344,
   430227734, 506948616, 659060556, 883997877, 958139571, 1322822218,
   1537002063, 1747873779, 1955562222, 2024104815, 2227730452, 2361852424,
   2428436474, 2756734187, 3204031479, 3329325298]

/-- The eight SHA-256 working words. -/
structure H8 where
  a : Nat
  b : Nat
  c : Nat
  d : Nat
  e : Nat
  f : Nat
  g : Nat
  h : Nat
deriving DecidableEq

/-- The SHA-256 initial hash value (FIPS 180-4, here in decimal). -/
def H8.init : H8 :=
  ⟨1779033703, 3144134277, 1013904242, 2773480762,
   1359893119, 2600822924, 528734635, 1541459225⟩

/-- One SHA-256 compression round; `kw` is the pair of round constant and
message-schedule word. -/
def shaRound (s : H8) (kw : Nat × Nat) : H8 :=
  let s1 := rotr32 6 s.e ^^^ rotr32 11 s.e ^^^ rotr32 25 s.e
  let ch := (s.e &&& s.f) ^^^ ((s.e ^^^ 4294967295) &&& s.g)
  let t1 := w32 (s.h + s1 + ch + kw.1 + kw.2)
  let s0 := rotr32 2 s.a ^^^ rotr32 13 s.a ^^^ rotr32 22 s.a
  let maj := (s.a &&& s.b) ^^^ (s.a &&& s.c) ^^^ (s.b &&& s.c)
  let t2 := w32 (s0 + maj)
  ⟨w32 (t1 + t2), s.a, s.b, s.c, w32 (s.d + t1), s.e, s.f, s.g⟩

/-- Extend a 16-word block to the 64-word message schedule (append `k` more
words). -/
def extendW (acc : List Nat) : Nat → List Nat
  | 0 => acc
  | k + 1 =>
    let n := acc.length
    let s0 := rotr32 7 (acc.getD (n - 15) 0) ^^^ rotr32 18 (acc.getD (n - 15) 0) ^^^
      ((acc.getD (n - 15) 0) >>> 3)
    let s1 := rotr32 17 (acc.getD (n - 2) 0) ^^^ rotr32 19 (acc.getD (n - 2) 0) ^^^
      ((acc.getD (n - 2) 0) >>> 10)
    extendW (acc ++ [w32 (s1 + acc.getD (n - 7) 0 + s0 + acc.getD (n - 16) 0)]) k

/-- Compress one 16-word block into the running hash value. -/
def compressBlock (H : H8) (ws : List Nat) : H8 :=
  let sched := extendW ws 48
  let s := (K256.zip sched).foldl shaRound H
  ⟨w32 (H.a + s.a), w32 (H.b + s.b), w32 (H.c + s.c), w32 (H.d + s.d),
   w32 (H.e + s.e), w32 (H.f + s.f), w32 (H.g + s.g), w32 (H.h + s.h)⟩

/-- The `k` bytes of `n` in big-endian order. -/
def bytesBE (k n : Nat) : List Nat :=
  (List.range k).map (fun i => (n >>> (8 * (k - 1 - i))) % 256)

/-- Split a list into chunks of `n` elements (`fuel`-structural; `fuel ≥`
the length of the list makes the split complete). -/
def chunksOfAux (n : Nat) : Nat → List α → List (List α)
  | 0, _ => []
  | _ + 1, [] => []
  | fuel + 1, x :: xs => (x :: xs).take n :: chunksOfAux n fuel ((x :: xs).drop n)

/-- Split a list into chunks of `n` elements. -/
def chunksOf (n : Nat) (l : List α) : List (List α) := chunksOfAux n l.length l

/-- SHA-256 of a byte list, as its 32 digest bytes. -/
def sha256 (msg : List Nat) : List Nat :=
  let L := msg.length
  let padded := msg ++ 128 :: (List.replicate ((119 - L % 64) % 64) 0 ++ bytesBE 8 (8 * L))
  let words := fun (blk : List Nat) =>
    (chunksOf 4 blk).map (fun c => c.foldl (fun acc b => acc * 256 + b) 0)
  let Hf := (chunksOf 64 padded).foldl (fun H blk => compressBlock H (words blk)) H8.init
  bytesBE 4 Hf.a ++ bytesBE 4 Hf.b ++ bytesBE 4 Hf.c ++ bytesBE 4 Hf.d ++
    bytesBE 4 Hf.e ++ bytesBE 4 Hf.f ++ bytesBE 4 Hf.g ++ bytesBE 4 Hf.h

/-- One hexadecimal digit. -/
def hexChar (n : Nat) : Char := "0123456789abcdef".toList.getD n '0'

/-- Lowercase-hex rendering of a byte list. -/
def hexOfBytes : List Nat → List Char
  | [] => []
  | b :: bs => hexChar (b / 16) :: hexChar (b % 16) :: hexOfBytes bs

/-- `hashlib.sha256(msg).hexdigest()`. -/
def sha256hex (msg : List Nat) : String := String.mk (hexOfBytes (sha256 msg))

/-- Sanity check: SHA-256 of the empty message is the well-known constant. -/
example : sha256hex [] = "e3b0c44298fc1c149afbf4c8996fb92427ae41e4649b934ca495991b7852b855" := by
  decide

/-- Sanity check: SHA-256 of `"abc"` (bytes 97 98 99) matches the FIPS 180
test vector. -/
example : sha256hex [97, 98, 99] =
    "ba7816bf8f01cfea414140de5dae2223b00361a396177a9cb410ff61f20015ad" := by
  decide

/-! ## Stage outcomes

Each analyzer in `main.py` wraps its whole body in
`try: ... except Exception as e: return {'error': f'...{str(e)}'}`, so a
stage call always *returns* — either its payload dict or an error-shaped
dict.  `StageResult` is that returned value. -/

/-- The value a stage function returns: its payload, or the error-shaped
dict `{'error': msg}` built by its `except` clause. -/
inductive StageResult (α : Type) where
  | ok (a : α)
  | errorDict (msg : String)
deriving DecidableEq

/-! ## HashComputer (`calculate_file_hash`, main.py lines 60–85) -/

/-- The payload dict built by `calculate_file_hash` on success.  The Python
`file_size` entry is the display string `f"{file_size:,} bytes"`; we keep
the underlying byte count (the formatting is display-only and no claim
touches it). -/
structure HashResult where
  algorithm : String
  file_size : Nat
  hash : String
  hash_breakdown : List String
deriving DecidableEq

/-- Frame numbers produced by a Python loop that starts at `fn`, steps by
`step`, and stops at `limit` (exclusive).  This is also
`range(0, limit, step)` when started at `fn = 0` with enough fuel. -/
def strideList (step limit : Nat) : Nat → Nat → List Nat
  | 0, _ => []
  | fuel + 1, fn => if fn < limit then fn :: strideList step limit fuel (fn + step) else []

/-- `hash_value[i:i+16] for i in range(0, len(hash_value), 16)` — the hex
digest split into 16-character display chunks. -/
def pySlices16 (s : String) : List String :=
  (strideList 16 s.length s.length 0).map (fun i => String.mk ((s.data.drop i).take 16))

/-- The successive values written to `hash_progress`: one write of
`processed / file_size * 100` per 8192-byte chunk read from the file.
`size` is the total file size taken by `os.path.getsize` before the loop;
`processed` is the running byte count.  A zero-byte file makes `f.read`
return the empty (falsy) chunk at once, so the loop body — including the
division by `file_size` — never runs. -/
def hashWritesAux (size : Nat) : Nat → Nat → List Nat → List ℚ
  | 0, _, _ => []
  | _ + 1, _, [] => []
  | fuel + 1, processed, x :: xs =>
    let p := processed + ((x :: xs).take 8192).length
    ((p : ℚ) / (size : ℚ) * 100) :: hashWritesAux size fuel p ((x :: xs).drop 8192)

/-- The `hash_progress` write trace of hashing `content`. -/
def hashWrites (content : List Nat) : List ℚ :=
  hashWritesAux content.length content.length 0 content

/-- The success payload of `calculate_file_hash` for a readable file. -/
def hashResult (content : List Nat) : HashResult :=
  let hash_value := sha256hex content
  { algorithm := "SHA-256"
    file_size := content.length
    hash := hash_value
    hash_breakdown := pySlices16 hash_value }

/-- `calculate_file_hash(path, file_id)`: the `hash_progress` writes it
performs and the value it returns.  `file` is the outcome of opening and
reading the file; when that raises (`Except.error e`), the `except` clause
returns the error dict and no progress write happens. -/
def calculate_file_hash (file : Except String (List Nat)) :
    List ℚ × StageResult HashResult :=
  match file with
  | .error e => ([], .errorDict ("Error calculating hash: " ++ e))
  | .ok content => (hashWrites content, .ok (hashResult content))

/-! ## FrameSampler (`analyze_video_frames`, main.py lines 87–139) -/

/-- What `cv2.VideoCapture` exposes of a video: the frame count and fps
reported by `cap.get`, and per-index decoding (`cap.set` + `cap.read`),
abstracted to the mean brightness `frame.mean()` of the decoded frame, or
`none` when `ret` is false.  An unopenable video is the all-zero capture
(`cv2` does not raise on open). -/
structure Video where
  frame_count : Nat
  fps : ℚ
  frames : Nat → Option ℚ

/-- `analysis_limit = min(frame_count, 1000)`. -/
def analysis_limit (v : Video) : Nat := min v.frame_count 1000

/-- Python `round(x, 2)`: round half to even at two decimal places. -/
def pyRound2 (x : ℚ) : ℚ :=
  let y := x * 100
  let f := Int.fract y
  ((if f < 1 / 2 then ⌊y⌋ else if 1 / 2 < f then ⌊y⌋ + 1
    else if 2 ∣ ⌊y⌋ then ⌊y⌋ else ⌊y⌋ + 1 : ℤ) : ℚ) / 100

/-- The state accumulated by the `while frame_number < analysis_limit`
loop: the dark and bright example lists, the normal counter, the successive
`frame_progress` writes, and (instrumentation for stating which frames were
sampled) the indices at which a frame was decoded and classified. -/
structure LoopState where
  dark : List (Nat × ℚ)
  bright : List (Nat × ℚ)
  normal : Nat
  writes : List ℚ
  examined : List Nat
deriving DecidableEq

/-- The frame-sampling loop.  Each pass seeks to `fn`, reads, breaks when
the read fails, classifies the brightness (`< 30` dark, `> 200` bright,
otherwise the bare counter), then advances the cursor by 10 and writes
`frame_number / analysis_limit * 100` — with the *already advanced*
cursor — to `frame_progress`. -/
def frameLoop (v : Video) (limit : Nat) : Nat → Nat → LoopState
  | 0, _ => ⟨[], [], 0, [], []⟩
  | fuel + 1, fn =>
    if fn < limit then
      match v.frames fn with
      | none => ⟨[], [], 0, [], []⟩
      | some b =>
        let rest := frameLoop v limit fuel (fn + 10)
        let cls :=
          if b < 30 then { rest with dark := (fn, pyRound2 b) :: rest.dark }
          else if 200 < b then { rest with bright := (fn, pyRound2 b) :: rest.bright }
          else { rest with normal := rest.normal + 1 }
        { cls with
          writes := (((fn + 10 : Nat) : ℚ) / (limit : ℚ) * 100) :: cls.writes
          examined := fn :: cls.examined }
    else ⟨[], [], 0, [], []⟩

/-- The payload dict built by `analyze_video_frames` on success.  The
Python `total_frames`, `frame_rate` and `duration` entries are display
strings (`f"{frame_count:,}"`, `f"{fps:.2f} fps"`, `f"{...:.2f} seconds"`);
we keep the underlying numbers. -/
structure FrameResult where
  total_frames : Nat
  frame_rate : ℚ
  duration : ℚ
  dark_frames : List (Nat × ℚ)
  bright_frames : List (Nat × ℚ)
  normal_frames : Nat
  summary_dark : Nat
  summary_bright : Nat
  summary_normal : Nat
deriving DecidableEq

/-- `analyze_video_frames(video_path, file_id)`: its `frame_progress`
writes and its returned value.  When `fps` is zero (e.g. the video could
not be opened) the `duration` entry `frame_count/fps` raises
`ZeroDivisionError`, which the `except` clause turns into the error dict —
after the loop's progress writes have already happened. -/
def analyze_video_frames (v : Video) : List ℚ × StageResult FrameResult :=
  let limit := analysis_limit v
  let st := frameLoop v limit limit 0
  if v.fps = 0 then
    (st.writes, .errorDict "Error analyzing frames: float division by zero")
  else
    (st.writes, .ok
      { total_frames := v.frame_count
        frame_rate := v.fps
        duration := (v.frame_count : ℚ) / v.fps
        dark_frames := st.dark.take 20
        bright_frames := st.bright.take 20
        normal_frames := st.normal
        summary_dark := st.dark.length
        summary_bright := st.bright.length
        summary_normal := st.normal })

/-! ## MetadataExtractor (`extract_metadata`, main.py lines 30–58) -/

/-- One `pymediainfo` track as `extract_metadata` reads it.  Textual fields
are `Option String`, numeric fields `Option Nat` (`none` models Python
`None`; the library's occasional floats/strings for numeric fields do not
affect anything claimed here).  `general` stands for every track type the
function ignores (General, Text, Menu, ...). -/
inductive Track where
  | video (codec : Option String) (duration : Option Nat) (width : Option Nat)
      (height : Option Nat) (frame_rate : Option String) (bit_rate : Option Nat)
      (color_space : Option String) (scan_type : Option String)
  | audio (codec : Option String) (sampling_rate : Option Nat) (channel_s : Option Nat)
      (bit_rate : Option Nat)
  | general
deriving DecidableEq

/-- Python `value or 'N/A'` for a textual field: `None` and the empty
string are falsy and become the sentinel. -/
def pyOrNAStr : Option String → String
  | none => "N/A"
  | some s => if s = "" then "N/A" else s

/-- Python `value or 'N/A'` for a numeric field: `None` and `0` are falsy
and become the sentinel; otherwise the value (rendered as Python would
interpolate it). -/
def pyOrNANat : Option Nat → String
  | none => "N/A"
  | some n => if n = 0 then "N/A" else toString n

/-- The `data['video']` dict: every missing source value is the explicit
`'N/A'` sentinel, unit suffixes as in the f-strings of the source. -/
structure VideoBlock where
  codec : String
  duration : String
  width : String
  height : String
  frame_rate : String
  bit_rate : String
  color_space : String
  scan_type : String
deriving DecidableEq

/-- The `data['audio']` dict. -/
structure AudioBlock where
  codec : String
  sample_rate : String
  channels : String
  bit_rate : String
deriving DecidableEq

/-- Build `data['video']` from a video track's fields. -/
def mkVideoBlock (codec : Option String) (duration : Option Nat) (width : Option Nat)
    (height : Option Nat) (frame_rate : Option String) (bit_rate : Option Nat)
    (color_space : Option String) (scan_type : Option String) : VideoBlock :=
  { codec := pyOrNAStr codec
    duration := pyOrNANat duration ++ " ms"
    width := pyOrNANat width ++ " px"
    height := pyOrNANat height ++ " px"
    frame_rate := pyOrNAStr frame_rate ++ " fps"
    bit_rate := pyOrNANat bit_rate ++ " bps"
    color_space := pyOrNAStr color_space
    scan_type := pyOrNAStr scan_type }

/-- Build `data['audio']` from an audio track's fields. -/
def mkAudioBlock (codec : Option String) (sampling_rate : Option Nat)
    (channel_s : Option Nat) (bit_rate : Option Nat) : AudioBlock :=
  { codec := pyOrNAStr codec
    sample_rate := pyOrNANat sampling_rate ++ " Hz"
    channels := pyOrNANat channel_s
    bit_rate := pyOrNANat bit_rate ++ " bps" }

/-- The `data` dict accumulated over the tracks: at most one video block
and one audio block (a later track of the same type overwrites). -/
structure MetaData where
  video : Option VideoBlock
  audio : Option AudioBlock
deriving DecidableEq

/-- The body of the `for track in media_info.tracks` loop: a video track
(re)binds `data['video']`, an audio track `data['audio']`, anything else is
skipped. -/
def updateMeta (d : MetaData) : Track → MetaData
  | .video c du w h fr br cs st => { d with video := some (mkVideoBlock c du w h fr br cs st) }
  | .audio c sr ch br => { d with audio := some (mkAudioBlock c sr ch br) }
  | .general => d

/-- `extract_metadata(video_path)`.  `parse` is the outcome of
`MediaInfo.parse`: tracks, or the exception it raised.  The function never
propagates: a parse exception becomes the error dict via the `except`
clause, and an empty `data` dict (no video and no audio track — Python
`{}` is falsy) becomes `{'error': 'No metadata available'}`. -/
def extract_metadata (parse : Except String (List Track)) : StageResult MetaData :=
  match parse with
  | .error e => .errorDict ("Error extracting metadata: " ++ e)
  | .ok tracks =>
    let data := tracks.foldl updateMeta ⟨none, none⟩
    if data.video.isNone && data.audio.isNone then .errorDict "No metadata available"
    else .ok data

/-! ## PreviewExtractor (`get_video_frame`, main.py lines 141–159)

The function decodes frame 0, resizes it to 640×480, JPEG-encodes it and
base64-encodes that; it returns `None` when the read fails or anything
raises.  No claim inspects the image processing, so the environment
supplies its returned value directly as an `Option String`. -/

/-! ## AnalysisOrchestrator (`perform_full_analysis`, main.py lines 161–194)

The orchestrator's only effects are writes to the shared
`analysis_progress[file_id]` record; we model a run as the ordered trace of
those writes. -/

/-- A value stored in the record's `results` dict: a stage's error dict or
its payload (`preview` is the `get_video_frame` return, possibly `None`). -/
inductive Value where
  | err (msg : String)
  | meta (m : MetaData)
  | hash (h : HashResult)
  | frames (f : FrameResult)
  | preview (p : Option String)
deriving DecidableEq

/-- Inject a stage's returned value into the `results` dict. -/
def stageValue (f : α → Value) : StageResult α → Value
  | .ok a => f a
  | .errorDict msg => .err msg

/-- One write to `analysis_progress[file_id]`. -/
inductive Event where
  | initRecord
  | setStatus (s : String)
  | setMetadataDone
  | setHashProgress (q : ℚ)
  | setFrameProgress (q : ℚ)
  | setResult (key : String) (v : Value)
deriving DecidableEq

/-- The `analysis_progress[file_id]` record. -/
structure Record where
  status : String
  metadata_done : Bool
  hash_progress : ℚ
  frame_progress : ℚ
  results : List (String × Value)
deriving DecidableEq

/-- Apply one write.  `setResult` is Python dict assignment; we prepend and
read with `List.lookup`, which returns the newest binding. -/
def applyEvent (r : Record) : Event → Record
  | .initRecord => ⟨"running", false, 0, 0, []⟩
  | .setStatus s => { r with status := s }
  | .setMetadataDone => { r with metadata_done := true }
  | .setHashProgress q => { r with hash_progress := q }
  | .setFrameProgress q => { r with frame_progress := q }
  | .setResult k v => { r with results := (k, v) :: r.results }

/-- The record an event trace produces (the starting dummy is irrelevant:
every trace begins with `initRecord`). -/
def applyEvents (es : List Event) : Record :=
  es.foldl applyEvent ⟨"", false, 0, 0, []⟩

/-- Everything outside the process that one `perform_full_analysis` run
consumes: the `MediaInfo.parse` outcome, the file open/read outcome, the
`cv2` view of the video, and the preview `get_video_frame` returns. -/
structure Env where
  parse : Except String (List Track)
  file : Except String (List Nat)
  video : Video
  preview : Option String

/-- The writes of the `try` body after the record initialization: the four
stages in sequence, each stage's progress writes followed by its result
write, with the status label advanced before each stage. -/
def bodyEvents (env : Env) : List Event :=
  Event.setStatus "Extracting metadata..." ::
  Event.setResult "metadata" (stageValue Value.meta (extract_metadata env.parse)) ::
  Event.setMetadataDone ::
  Event.setStatus "Calculating file hash..." ::
  ((calculate_file_hash env.file).1.map Event.setHashProgress ++
    (Event.setResult "hash" (stageValue Value.hash (calculate_file_hash env.file).2) ::
      Event.setStatus "Analyzing video frames..." ::
      ((analyze_video_frames env.video).1.map Event.setFrameProgress ++
        [Event.setResult "frames" (stageValue Value.frames (analyze_video_frames env.video).2),
          Event.setResult "preview_frame" (Value.preview env.preview)])))

/-- `perform_full_analysis(video_path, file_id)` as its write trace: the
record initialization, the `try` body, and the final `status = 'complete'`.
Every stage call returns (each one catches its own exceptions), so the
body runs to the end and the `except Exception` clause of the orchestrator
is never entered in a run over these inputs. -/
def perform_full_analysis (env : Env) : List Event :=
  Event.initRecord :: (bodyEvents env ++ [Event.setStatus "complete"])

/-- A run in which an `Exception` escapes the `try` body after its first
`k` writes (the situation the orchestrator's `except Exception` clause is
written for): the handler performs exactly one further write,
`status = f'error: {str(e)}'`, and the run ends. -/
def perform_full_analysis_raising (env : Env) (k : Nat) (msg : String) : List Event :=
  Event.initRecord :: ((bodyEvents env).take k ++ [Event.setStatus ("error: " ++ msg)])

/-- The record after the first `i` writes of a run. -/
def recAt (env : Env) (i : Nat) : Record :=
  applyEvents ((perform_full_analysis env).take i)

/-- The record a completed run leaves behind. -/
def finalRecord (env : Env) : Record :=
  applyEvents (perform_full_analysis env)

/-- A status is terminal when it is `complete` or an `error: ...` message. -/
def isTerminal (s : String) : Bool :=
  s == "complete" || s.data.take 6 == "error:".data

/-! ## Transport layer (`upload_file` and `get_results`) -/

/-- One upload request: the file bytes and the whole-second timestamp
`int(time.time())` observed while handling it. -/
structure Upload where
  content : List Nat
  time : Nat
deriving DecidableEq

/-- `file_id = timestamp = str(int(time.time()))` (main.py lines 211, 217):
the id depends on nothing but the whole-second wall clock. -/
def upload_file_id (u : Upload) : String := toString u.time

/-- The response of `GET /results/<file_id>`. -/
inductive ResultsResponse where
  | notFound
  | resultsMap (m : List (String × Value))
  | notReady
deriving DecidableEq

/-- `get_results(file_id)` (main.py lines 245–253): 404 for an unknown id,
the `results` map when the record's status is `complete`, and
`{'status': 'not_ready'}` otherwise. -/
def get_results (analysis_progress : String → Option Record) (file_id : String) :
    ResultsResponse :=
  match analysis_progress file_id with
  | none => .notFound
  | some r => if r.status = "complete" then .resultsMap r.results else .notReady

/-- The status value an event writes, if any (`initRecord` writes the whole
fresh record, whose status is `running`). -/
def statusEvt : Event → Option String
  | .initRecord => some "running"
  | .setStatus s => some s
  | _ => none

/-! ## Concrete fixtures used by witnesses and counterexamples -/

/-- A 5-frame, 1 fps video whose every frame decodes with mean
brightness 100. -/
def vFive : Video := ⟨5, 1, fun _ => some 100⟩

/-- A 0-frame video with nonzero fps (its sampling loop never runs). -/
def vNone : Video := ⟨0, 1, fun _ => none⟩

/-- A run whose uploaded file cannot be opened, over the trivial video:
the hash stage's hard failure. -/
def envFileError : Env := ⟨.ok [], .error "No such file or directory", vNone, none⟩

/-- A run over the 5-frame video. -/
def envFiveFrames : Env := ⟨.ok [], .ok [], vFive, none⟩

/-- A run over a zero-byte uploaded file. -/
def envEmptyFile : Env := ⟨.ok [], .ok [], vNone, none⟩

/-- A run in which every stage degrades: the metadata parse raises, the
file is unreadable, the video unopenable (zero frames, zero fps). -/
def envAllFail : Env := ⟨.error "parse failure", .error "io failure", ⟨0, 0, fun _ => none⟩, none⟩

/-- The frame-analysis payload of the 0-frame video `vNone`. -/
def rNone : FrameResult :=
  { total_frames := 0
    frame_rate := 1
    duration := ((0 : Nat) : ℚ) / (1 : ℚ)
    dark_frames := []
    bright_frames := []
    normal_frames := 0
    summary_dark := 0
    summary_bright := 0
    summary_normal := 0 }

/-- A complete record as `get_results` sees it. -/
def recComplete : Record :=
  ⟨"complete", true, 100, 100, [("metadata", Value.err "No metadata available")]⟩

/-- A still-running record. -/
def recRunning : Record := ⟨"running", false, 0, 0, []⟩

/-- A store holding one complete and one running record. -/
def storeW : String → Option Record :=
  fun i => if i = "1700000000" then some recComplete
    else if i = "1700000001" then some recRunning else none

/-! ## Lemmas about the hash progress trace -/

/-- Percentages grow with the byte count. -/
lemma progressMono {a b n : Nat} (hab : a ≤ b) :
    ((a : Nat) : ℚ) / ((n : Nat) : ℚ) * 100 ≤ ((b : Nat) : ℚ) / ((n : Nat) : ℚ) * 100 := by
  rcases Nat.eq_zero_or_pos n with hn | hn
  · subst hn; simp
  · have hn' : (0 : ℚ) < (n : ℚ) := by exact_mod_cast hn
    gcongr

/-- Every hash progress write is at least the percentage already processed
when the loop resumed. -/
lemma hashWritesAux_lb (size : Nat) :
    ∀ fuel processed l, ∀ q ∈ hashWritesAux size fuel processed l,
      ((processed : Nat) : ℚ) / ((size : Nat) : ℚ) * 100 ≤ q := by
  intro fuel
  induction fuel with
  | zero => intro processed l q hq; simp [hashWritesAux] at hq
  | succ n ih =>
    intro processed l q hq
    match l with
    | [] => simp [hashWritesAux] at hq
    | x :: xs =>
      rw [hashWritesAux] at hq
      rcases List.mem_cons.mp hq with h | h
      · subst h; exact progressMono (Nat.le_add_right _ _)
      · exact le_trans (progressMono (Nat.le_add_right _ _)) (ih _ _ q h)

/-- Every hash progress write is at most 100, as long as the bytes still to
be read fit in the announced file size. -/
lemma hashWritesAux_ub (size : Nat) (hs : 0 < size) :
    ∀ fuel processed l, processed + l.length ≤ size →
      ∀ q ∈ hashWritesAux size fuel processed l, q ≤ 100 := by
  intro fuel
  induction fuel with
  | zero => intro processed l _ q hq; simp [hashWritesAux] at hq
  | succ n ih =>
    intro processed l hinv q hq
    match l with
    | [] => simp [hashWritesAux] at hq
    | x :: xs =>
      rw [hashWritesAux] at hq
      have htake : processed + ((x :: xs).take 8192).length ≤ size := by
        have := List.length_take 8192 (x :: xs)
        omega
      rcases List.mem_cons.mp hq with h | h
      · subst h
        have hs' : (0 : ℚ) < (size : ℚ) := by exact_mod_cast hs
        have hle : ((processed + ((x :: xs).take 8192).length : Nat) : ℚ) / (size : ℚ) ≤ 1 := by
          rw [div_le_one hs']
          exact_mod_cast htake
        calc ((processed + ((x :: xs).take 8192).length : Nat) : ℚ) / (size : ℚ) * 100
            ≤ 1 * 100 := by gcongr
          _ = 100 := one_mul 100
      · refine ih _ _ ?_ q h
        have h1 := List.length_take 8192 (x :: xs)
        have h2 := List.length_drop 8192 (x :: xs)
        omega

/-- Hash progress writes are monotonically non-decreasing. -/
lemma hashWritesAux_pairwise (size : Nat) :
    ∀ fuel processed l, List.Pairwise (· ≤ ·) (hashWritesAux size fuel processed l) := by
  intro fuel
  induction fuel with
  | zero => intro processed l; simp [hashWritesAux]
  | succ n ih =>
    intro processed l
    match l with
    | [] => simp [hashWritesAux]
    | x :: xs =>
      rw [hashWritesAux]
      refine List.Pairwise.cons (fun q hq => ?_) (ih _ _)
      exact hashWritesAux_lb size n _ _ q hq

/-! ## Lemmas about the frame sampling loop -/

/-- The classification step touches only the bucket fields, never the
progress or cursor bookkeeping. -/
lemma frameLoop_succ (v : Video) (limit fuel fn : Nat) (b : ℚ)
    (h : fn < limit) (hf : v.frames fn = some b) :
    frameLoop v limit (fuel + 1) fn =
      { dark := (if b < 30 then [(fn, pyRound2 b)] else []) ++
          (frameLoop v limit fuel (fn + 10)).dark
        bright := (if b < 30 then [] else if 200 < b then [(fn, pyRound2 b)] else []) ++
          (frameLoop v limit fuel (fn + 10)).bright
        normal := (if b < 30 then 0 else if 200 < b then 0 else 1) +
          (frameLoop v limit fuel (fn + 10)).normal
        writes := (((fn + 10 : Nat) : ℚ) / (limit : ℚ) * 100) ::
          (frameLoop v limit fuel (fn + 10)).writes
        examined := fn :: (frameLoop v limit fuel (fn + 10)).examined } := by
  rw [frameLoop]
  simp only [if_pos h, hf]
  split_ifs with h1 h2 <;> simp [Nat.add_comm]

/-- Every frame examined by the loop lies in `[fn, limit)`, and every
dark/bright entry and progress write comes from such a frame. -/
lemma frameLoop_mem (v : Video) (limit : Nat) :
    ∀ fuel fn,
      (∀ m ∈ (frameLoop v limit fuel fn).examined, fn ≤ m ∧ m < limit) ∧
      (∀ p ∈ (frameLoop v limit fuel fn).dark, fn ≤ p.1 ∧ p.1 < limit) ∧
      (∀ p ∈ (frameLoop v limit fuel fn).bright, fn ≤ p.1 ∧ p.1 < limit) ∧
      (∀ q ∈ (frameLoop v limit fuel fn).writes,
        ∃ m, fn ≤ m ∧ m < limit ∧ q = ((m + 10 : Nat) : ℚ) / ((limit : Nat) : ℚ) * 100) := by
  intro fuel
  induction fuel with
  | zero => intro fn; simp [frameLoop]
  | succ n ih =>
    intro fn
    by_cases h : fn < limit
    · rcases hf : v.frames fn with _ | b
      · rw [frameLoop]; simp [if_pos h, hf]
      · rw [frameLoop_succ v limit n fn b h hf]
        obtain ⟨ihe, ihd, ihb, ihw⟩ := ih (fn + 10)
        refine ⟨?_, ?_, ?_, ?_⟩
        · intro m hm
          rcases List.mem_cons.mp hm with rfl | hm
          · exact ⟨le_refl _, h⟩
          · have := ihe m hm; omega
        · intro p hp
          rcases List.mem_append.mp hp with hp | hp
          · split_ifs at hp <;> simp at hp
            rcases hp with ⟨rfl, -⟩
            exact ⟨le_refl _, h⟩
          · have := ihd p hp; omega
        · intro p hp
          rcases List.mem_append.mp hp with hp | hp
          · split_ifs at hp <;> simp at hp
            rcases hp with ⟨rfl, -⟩
            exact ⟨le_refl _, h⟩
          · have := ihb p hp; omega
        · intro q hq
          rcases List.mem_cons.mp hq with rfl | hq
          · exact ⟨fn, le_refl _, h, rfl⟩
          · obtain ⟨m, hm1, hm2, hm3⟩ := ihw q hq
            exact ⟨m, by omega, hm2, hm3⟩
    · rw [frameLoop]; simp [if_neg h]

/-- Frame progress writes are monotonically non-decreasing. -/
lemma frameLoop_writes_pairwise (v : Video) (limit : Nat) :
    ∀ fuel fn, List.Pairwise (· ≤ ·) (frameLoop v limit fuel fn).writes := by
  intro fuel
  induction fuel with
  | zero => intro fn; simp [frameLoop]
  | succ n ih =>
    intro fn
    by_cases h : fn < limit
    · rcases hf : v.frames fn with _ | b
      · rw [frameLoop]; simp [if_pos h, hf]
      · rw [frameLoop_succ v limit n fn b h hf]
        refine List.Pairwise.cons (fun q hq => ?_) (ih (fn + 10))
        obtain ⟨-, -, -, hw⟩ := frameLoop_mem v limit n (fn + 10)
        obtain ⟨m, hm1, -, rfl⟩ := hw q hq
        exact progressMono (by omega)
    · rw [frameLoop]; simp [if_neg h]

/-- Dark and bright example entries are listed in strictly increasing frame
order: the lists hold the first qualifying frames in sampling order. -/
lemma frameLoop_buckets_sorted (v : Video) (limit : Nat) :
    ∀ fuel fn,
      List.Pairwise (fun p q => p.1 < q.1) (frameLoop v limit fuel fn).dark ∧
      List.Pairwise (fun p q => p.1 < q.1) (frameLoop v limit fuel fn).bright := by
  intro fuel
  induction fuel with
  | zero => intro fn; simp [frameLoop]
  | succ n ih =>
    intro fn
    by_cases h : fn < limit
    · rcases hf : v.frames fn with _ | b
      · rw [frameLoop]; simp [if_pos h, hf]
      · rw [frameLoop_succ v limit n fn b h hf]
        obtain ⟨ihd, ihb⟩ := ih (fn + 10)
        obtain ⟨-, hd, hb, -⟩ := frameLoop_mem v limit n (fn + 10)
        constructor
        · split_ifs with h1 h2 <;> simp only [List.singleton_append, List.nil_append]
          · exact List.Pairwise.cons (fun p hp => by have := hd p hp; omega) ihd
          · exact ihd
          · exact ihd
        · split_ifs with h1 h2 <;> simp only [List.singleton_append, List.nil_append]
          · exact ihb
          · exact List.Pairwise.cons (fun p hp => by have := hb p hp; omega) ihb
          · exact ihb
    · rw [frameLoop]; simp [if_neg h]

/-- On a video whose every frame decodes (brightness `b`), the loop is the
declarative stride iteration: it examines exactly the cursor positions
`fn, fn+10, fn+20, ...` below `limit`, classifies each by the thresholds,
and writes the advanced-cursor percentage for each. -/
lemma frameLoop_total_spec (v : Video) (limit : Nat) (b : Nat → ℚ)
    (hv : ∀ n, v.frames n = some (b n)) :
    ∀ fuel fn, frameLoop v limit fuel fn =
      { dark := (strideList 10 limit fuel fn).filterMap
          (fun m => if b m < 30 then some (m, pyRound2 (b m)) else none)
        bright := (strideList 10 limit fuel fn).filterMap
          (fun m => if b m < 30 then none
            else if 200 < b m then some (m, pyRound2 (b m)) else none)
        normal := ((strideList 10 limit fuel fn).filter
          (fun m => !decide (b m < 30) && !decide (200 < b m))).length
        writes := (strideList 10 limit fuel fn).map
          (fun m => ((m + 10 : Nat) : ℚ) / ((limit : Nat) : ℚ) * 100)
        examined := strideList 10 limit fuel fn } := by
  intro fuel
  induction fuel with
  | zero => intro fn; rfl
  | succ n ih =>
    intro fn
    by_cases h : fn < limit
    · rw [frameLoop_succ v limit n fn (b fn) h (hv fn), strideList, if_pos h, ih (fn + 10)]
      by_cases h1 : b fn < 30
      · simp [h1, List.filterMap_cons, List.filter_cons]
      · by_cases h2 : 200 < b fn
        · simp [h1, h2, List.filterMap_cons, List.filter_cons]
        · simp [h1, h2, List.filterMap_cons, List.filter_cons, Nat.add_comm]
    · rw [frameLoop, strideList]; simp [if_neg h]

/-! ## Lemmas about the orchestrator's write trace -/

/-- A run of `hash_progress` writes leaves every other field alone and the
field at the last written value. -/
lemma foldl_setHashProgress (ws : List ℚ) (r : Record) :
    (ws.map Event.setHashProgress).foldl applyEvent r =
      { r with hash_progress := ws.getLastD r.hash_progress } := by
  induction ws generalizing r with
  | nil => rfl
  | cons q ws ih =>
    rw [List.map_cons, List.foldl_cons, List.getLastD_cons]
    exact ih { r with hash_progress := q }

/-- A run of `frame_progress` writes leaves every other field alone and the
field at the last written value. -/
lemma foldl_setFrameProgress (ws : List ℚ) (r : Record) :
    (ws.map Event.setFrameProgress).foldl applyEvent r =
      { r with frame_progress := ws.getLastD r.frame_progress } := by
  induction ws generalizing r with
  | nil => rfl
  | cons q ws ih =>
    rw [List.map_cons, List.foldl_cons, List.getLastD_cons]
    exact ih { r with frame_progress := q }

/-- The record a completed `perform_full_analysis` run leaves behind:
status `complete`, metadata flagged done, each progress field at its last
written value (its initial 0 when its stage wrote nothing), and all four
result keys bound to their stage's returned value. -/
lemma finalRecord_eq (env : Env) :
    finalRecord env =
      { status := "complete"
        metadata_done := true
        hash_progress := (calculate_file_hash env.file).1.getLastD 0
        frame_progress := (analyze_video_frames env.video).1.getLastD 0
        results := [("preview_frame", Value.preview env.preview),
          ("frames", stageValue Value.frames (analyze_video_frames env.video).2),
          ("hash", stageValue Value.hash (calculate_file_hash env.file).2),
          ("metadata", stageValue Value.meta (extract_metadata env.parse))] } := by
  rw [finalRecord, perform_full_analysis, bodyEvents, applyEvents]
  simp only [List.foldl_cons, List.foldl_append, List.foldl_nil, foldl_setHashProgress,
    foldl_setFrameProgress, applyEvent]

/-- The status after a fold is the last status written, or the starting one. -/
lemma foldl_status (es : List Event) :
    ∀ r : Record, (es.foldl applyEvent r).status =
      es.foldl (fun d e => (statusEvt e).getD d) r.status := by
  induction es with
  | nil => intro r; rfl
  | cons e es ih =>
    intro r
    rw [List.foldl_cons, List.foldl_cons, ih]
    cases e <;> rfl

/-- Folding status writes none of which is terminal cannot produce a
terminal status. -/
lemma foldl_status_nonterminal (es : List Event) :
    ∀ d : String, (∀ s, some s ∈ es.map statusEvt → isTerminal s = false) →
      isTerminal d = false →
      isTerminal (es.foldl (fun d e => (statusEvt e).getD d) d) = false := by
  induction es with
  | nil => intro d _ hd; exact hd
  | cons e es ih =>
    intro d hs hd
    rw [List.foldl_cons]
    refine ih _ (fun s hmem => hs s (by simp [hmem])) ?_
    rcases he : statusEvt e with _ | s
    · simpa [he]
    · simpa [he] using hs s (by simp [he])

/-- No write of the orchestrator body (record initialization included)
carries a terminal status: terminal statuses appear only as a run's very
last write. -/
lemma bodyEvents_status_nonterminal (env : Env) :
    ∀ s, some s ∈ (Event.initRecord :: bodyEvents env).map statusEvt →
      isTerminal s = false := by
  intro s hs
  rw [bodyEvents] at hs
  simp [statusEvt, Function.comp] at hs
  rcases hs with rfl | rfl | rfl | rfl <;> rfl

/-- The trace split into its body and the final `complete` write. -/
lemma perform_full_analysis_split (env : Env) :
    perform_full_analysis env =
      (Event.initRecord :: bodyEvents env) ++ [Event.setStatus "complete"] := by
  simp [perform_full_analysis]

/-- Strictly before the final write the status is never terminal. -/
lemma recAt_status_nonterminal (env : Env) (i : Nat)
    (hi : i < (perform_full_analysis env).length) :
    isTerminal (recAt env i).status = false := by
  have hlen : (perform_full_analysis env).length =
      (Event.initRecord :: bodyEvents env).length + 1 := by
    rw [perform_full_analysis_split]; simp
  have hi' : i ≤ (Event.initRecord :: bodyEvents env).length := by omega
  rw [recAt, perform_full_analysis_split, List.take_append_of_le_length hi', applyEvents,
    foldl_status]
  refine foldl_status_nonterminal _ _ (fun s hmem => ?_) rfl
  obtain ⟨e, he, hes⟩ := List.mem_map.mp hmem
  exact bodyEvents_status_nonterminal env s (List.mem_map.mpr ⟨e, List.take_subset _ _ he, hes⟩)

/-- Both branches of `analyze_video_frames` report the loop's writes. -/
lemma analyze_writes_eq (v : Video) :
    (analyze_video_frames v).1 =
      (frameLoop v (analysis_limit v) (analysis_limit v) 0).writes := by
  rw [analyze_video_frames]
  split_ifs <;> rfl

/-! ## Lemmas about the digest presentation -/

/-- `bytesBE` always yields exactly `k` bytes. -/
lemma bytesBE_length (k n : Nat) : (bytesBE k n).length = k := by
  simp [bytesBE]

/-- A SHA-256 digest is 32 bytes. -/
lemma sha256_length (msg : List Nat) : (sha256 msg).length = 32 := by
  simp [sha256, bytesBE_length]

/-- Hex rendering doubles the length. -/
lemma hexOfBytes_length (l : List Nat) : (hexOfBytes l).length = 2 * l.length := by
  induction l with
  | nil => rfl
  | cons b bs ih => simp [hexOfBytes, ih]; omega

/-- A SHA-256 hex digest has 64 characters. -/
lemma sha256hex_length (msg : List Nat) : (sha256hex msg).length = 64 := by
  show (hexOfBytes (sha256 msg)).length = 64
  rw [hexOfBytes_length, sha256_length]

/-- On a 64-character string the slice comprehension evaluates to the four
16-character slices. -/
lemma pySlices16_of_length (s : String) (h : s.length = 64) :
    pySlices16 s = [String.mk (s.data.take 16), String.mk ((s.data.drop 16).take 16),
      String.mk ((s.data.drop 32).take 16), String.mk ((s.data.drop 48).take 16)] := by
  rw [pySlices16, h]
  have hstep : strideList 16 64 64 0 = [0, 16, 32, 48] := by decide
  rw [hstep]
  simp

/-- Reassembling the four 16-element slices of a 64-element list gives the
list back. -/
lemma take_drop_reassemble (l : List Char) (h : l.length = 64) :
    l.take 16 ++ (l.drop 16).take 16 ++ (l.drop 32).take 16 ++ (l.drop 48).take 16 = l := by
  rw [List.append_assoc, List.append_assoc]
  have h48 : (l.drop 48).take 16 = l.drop 48 :=
    List.take_of_length_le (by rw [List.length_drop]; omega)
  rw [h48]
  have e3 : (l.drop 32).take 16 ++ l.drop 48 = l.drop 32 := by
    have := List.take_append_drop 16 (l.drop 32)
    rwa [List.drop_drop] at this
  rw [e3]
  have e2 : (l.drop 16).take 16 ++ l.drop 32 = l.drop 16 := by
    have := List.take_append_drop 16 (l.drop 16)
    rwa [List.drop_drop] at this
  rw [e2, List.take_append_drop]

/-! ## Claims -/

/-- C1 counterexample: run the orchestrator with a file that cannot be
opened (the hash stage's hard failure).  Contrary to the claim, the
pipeline does not stop and the status does not become `error(...)`: the
run finishes with status `complete` and the later stages' result keys
(`frames`, `preview_frame`) are present. -/
theorem hash_failure_not_fatal_cex :
    (finalRecord envFileError).status = "complete" ∧
    isTerminal (finalRecord envFileError).status = true ∧
    ((finalRecord envFileError).results.lookup "frames").isSome = true ∧
    ((finalRecord envFileError).results.lookup "preview_frame").isSome = true := by
  decide

/-- C1 (amended): hard failures of the hash or frame-sampling stage do not
abort the pipeline either — every stage catches its own exceptions, so each
failure is swallowed into an error-shaped value stored under the stage's
result key, the remaining stages still run, all four result keys are
present, and the final status is `complete` for every run. -/
theorem pipeline_swallows_stage_failures (env : Env) :
    (finalRecord env).status = "complete" ∧
    (∀ k, k ∈ ["metadata", "hash", "frames", "preview_frame"] →
      ((finalRecord env).results.lookup k).isSome = true) ∧
    (∀ e, env.file = Except.error e →
      (finalRecord env).results.lookup "hash" =
        some (Value.err ("Error calculating hash: " ++ e))) ∧
    (env.video.fps = 0 →
      (finalRecord env).results.lookup "frames" =
        some (Value.err "Error analyzing frames: float division by zero")) := by
  rw [finalRecord_eq]
  refine ⟨rfl, ?_, ?_, ?_⟩
  · intro k hk
    simp only [List.mem_cons, List.not_mem_nil, or_false] at hk
    rcases hk with rfl | rfl | rfl | rfl <;> rfl
  · intro e he
    rw [he]
    rfl
  · intro hf
    have h2 : (analyze_video_frames env.video).2 =
        .errorDict "Error analyzing frames: float division by zero" := by
      rw [analyze_video_frames]
      simp [hf]
    rw [h2]
    rfl

/-- C1 witness: in the unreadable-file run the `hash` key holds the
swallowed error dict and the `metadata` key is present. -/
theorem pipeline_swallows_stage_failures_witness :
    (finalRecord envFileError).results.lookup "hash" =
      some (Value.err ("Error calculating hash: " ++ "No such file or directory")) ∧
    ((finalRecord envFileError).results.lookup "metadata").isSome = true :=
  ⟨(pipeline_swallows_stage_failures envFileError).2.2.1 "No such file or directory" rfl,
   (pipeline_swallows_stage_failures envFileError).2.1 "metadata" (by decide)⟩

/-- C2 counterexample: over a 5-frame video (`analysis_limit = 5`) the
single loop pass writes `frame_progress = (0+10)/5*100 = 200`, so the field
is not confined to `[0, 100]`. -/
theorem frame_progress_exceeds_100_cex :
    (finalRecord envFiveFrames).frame_progress = 200 ∧ ¬ ((200 : ℚ) ≤ 100) := by
  constructor
  · rw [finalRecord_eq]
    show (analyze_video_frames vFive).1.getLastD 0 = 200
    rw [analyze_writes_eq,
      frameLoop_total_spec vFive (analysis_limit vFive) (fun _ => 100) (fun _ => rfl)]
    have h1 : analysis_limit vFive = 5 := rfl
    rw [h1]
    have h2 : strideList 10 5 5 0 = [0] := by decide
    rw [h2]
    simp
    norm_num
  · norm_num

/-- C2 (amended): both progress traces are monotonically non-decreasing;
`hash_progress` writes lie in `[0, 100]`, but a `frame_progress` write is
`(frame_number+10)/analysis_limit*100` with the already-advanced cursor, so
it is only bounded by `(analysis_limit+9)/analysis_limit*100`, which
exceeds 100 whenever the limit is not a multiple of 10. -/
theorem progress_monotone_bounds :
    (∀ content : List Nat, List.Pairwise (· ≤ ·) (hashWrites content)) ∧
    (∀ content : List Nat, ∀ q ∈ hashWrites content, 0 ≤ q ∧ q ≤ 100) ∧
    (∀ v : Video, List.Pairwise (· ≤ ·) (analyze_video_frames v).1) ∧
    (∀ v : Video, ∀ q ∈ (analyze_video_frames v).1,
      0 < q ∧
        q ≤ ((analysis_limit v + 9 : Nat) : ℚ) / ((analysis_limit v : Nat) : ℚ) * 100) := by
  refine ⟨fun content => hashWritesAux_pairwise _ _ _ _, ?_, ?_, ?_⟩
  · intro content q hq
    constructor
    · have := hashWritesAux_lb content.length content.length 0 content q hq
      simpa using this
    · match content with
      | [] => simp [hashWrites, hashWritesAux] at hq
      | x :: xs =>
        exact hashWritesAux_ub (x :: xs).length (Nat.succ_pos _) (x :: xs).length 0 (x :: xs)
          (by simp) q hq
  · intro v
    rw [analyze_writes_eq]
    exact frameLoop_writes_pairwise v _ _ _
  · intro v q hq
    rw [analyze_writes_eq] at hq
    obtain ⟨-, -, -, hw⟩ :=
      frameLoop_mem v (analysis_limit v) (analysis_limit v) 0
    obtain ⟨m, -, hm2, rfl⟩ := hw q hq
    have hL : 0 < analysis_limit v := by omega
    have hLq : (0 : ℚ) < ((analysis_limit v : Nat) : ℚ) := by exact_mod_cast hL
    constructor
    · apply mul_pos (div_pos _ hLq) (by norm_num)
      exact_mod_cast Nat.succ_le_of_lt (by omega)
    · exact progressMono (by omega)

/-- C2 witness: a one-chunk file writes the single value 100 and a 5-frame
video writes the single value `10/5*100`, instantiating every bound. -/
theorem progress_monotone_bounds_witness :
    List.Pairwise (· ≤ ·) (hashWrites [1]) ∧
    (0 ≤ ((1 : Nat) : ℚ) / ((1 : Nat) : ℚ) * 100 ∧
      ((1 : Nat) : ℚ) / ((1 : Nat) : ℚ) * 100 ≤ 100) ∧
    List.Pairwise (· ≤ ·) (analyze_video_frames vFive).1 ∧
    (0 < ((10 : Nat) : ℚ) / ((5 : Nat) : ℚ) * 100 ∧
      ((10 : Nat) : ℚ) / ((5 : Nat) : ℚ) * 100 ≤ ((14 : Nat) : ℚ) / ((5 : Nat) : ℚ) * 100) :=
  ⟨progress_monotone_bounds.1 [1],
   progress_monotone_bounds.2.1 [1] _ (List.mem_cons_self _ _),
   progress_monotone_bounds.2.2.1 vFive,
   progress_monotone_bounds.2.2.2 vFive _ (List.mem_cons_self _ _)⟩

/-- C3 counterexample: for a zero-byte file the chunk loop body never runs,
so no progress write happens at all — `hash_progress` stays at its
initial 0 and is never set to 100, contrary to the claim's "reports 100%
hash progress". -/
theorem empty_file_progress_stays_zero_cex :
    hashWrites [] = [] ∧ (finalRecord envEmptyFile).hash_progress = 0 ∧
    ¬ ((0 : ℚ) = 100) := by
  refine ⟨by decide, by decide, by decide⟩

/-- C3 (amended): for a zero-byte file `f.read` returns the falsy empty
chunk at once, so the loop body — and with it the division by the zero
file size — never executes: there is no progress write (the field stays at
its initial 0), and the returned digest is the SHA-256 of the empty input,
`e3b0c44298fc1c149afbf4c8996fb92427ae41e4649b934ca495991b7852b855`. -/
theorem empty_file_hash_spec :
    calculate_file_hash (Except.ok ([] : List Nat)) =
      ([], StageResult.ok
        { algorithm := "SHA-256"
          file_size := 0
          hash := "e3b0c44298fc1c149afbf4c8996fb92427ae41e4649b934ca495991b7852b855"
          hash_breakdown := ["e3b0c44298fc1c14", "9afbf4c8996fb924", "27ae41e4649b934c",
            "a495991b7852b855"] }) := by
  decide

/-- C4 counterexample: two distinct uploads handled within the same whole
second (`int(time.time())` equal) are assigned the *same* SubmissionId, so
ids are not distinct and the colliding id keys a single shared
ProgressRecord slot. -/
theorem same_second_upload_collision_cex :
    (⟨[0], 1700000000⟩ : Upload) ≠ (⟨[1], 1700000000⟩ : Upload) ∧
    upload_file_id ⟨[0], 1700000000⟩ = upload_file_id ⟨[1], 1700000000⟩ := by
  exact ⟨by decide, rfl⟩

/-- C4 (amended): byte-for-byte equal contents always produce identical
digests (hashing is a function of the bytes alone), but the SubmissionId is
a function of nothing but the whole-second timestamp: any two uploads
handled in the same second receive the same id (and hence share one
ProgressRecord slot) no matter how their contents differ. -/
theorem upload_digest_and_id_dependence :
    (∀ u₁ u₂ : Upload, u₁.content = u₂.content →
      (hashResult u₁.content).hash = (hashResult u₂.content).hash) ∧
    (∀ u₁ u₂ : Upload, u₁.time = u₂.time → upload_file_id u₁ = upload_file_id u₂) := by
  constructor
  · intro u₁ u₂ h
    rw [h]
  · intro u₁ u₂ h
    rw [upload_file_id, upload_file_id, h]

/-- C4 witness: equal-content uploads at different seconds share a digest;
different-content uploads in the same second share an id. -/
theorem upload_digest_and_id_dependence_witness :
    (hashResult [7]).hash = (hashResult [7]).hash ∧
    upload_file_id ⟨[0], 1700000000⟩ = upload_file_id ⟨[1], 1700000000⟩ :=
  ⟨upload_digest_and_id_dependence.1 ⟨[7], 3⟩ ⟨[7], 4⟩ rfl,
   upload_digest_and_id_dependence.2 ⟨[0], 1700000000⟩ ⟨[1], 1700000000⟩ rfl⟩

/-- C5: the frame sampler uses `analysis_limit = min(frame_count, 1000)`
and, on a video whose frames all decode with brightness `b`, examines
exactly the cursor positions `0, 10, 20, ...` strictly below the limit,
classifying each as dark (`< 30`), bright (`> 200`) or a bare normal
count otherwise; in particular a 5-frame video has `analysis_limit = 5`
and samples only frame 0. -/
theorem frame_sampler_iteration_spec (v : Video) (b : Nat → ℚ)
    (hv : ∀ n, v.frames n = some (b n)) :
    analysis_limit v = min v.frame_count 1000 ∧
    (frameLoop v (analysis_limit v) (analysis_limit v) 0).examined =
      strideList 10 (analysis_limit v) (analysis_limit v) 0 ∧
    (frameLoop v (analysis_limit v) (analysis_limit v) 0).dark =
      (strideList 10 (analysis_limit v) (analysis_limit v) 0).filterMap
        (fun m => if b m < 30 then some (m, pyRound2 (b m)) else none) ∧
    (frameLoop v (analysis_limit v) (analysis_limit v) 0).bright =
      (strideList 10 (analysis_limit v) (analysis_limit v) 0).filterMap
        (fun m => if b m < 30 then none
          else if 200 < b m then some (m, pyRound2 (b m)) else none) ∧
    (frameLoop v (analysis_limit v) (analysis_limit v) 0).normal =
      ((strideList 10 (analysis_limit v) (analysis_limit v) 0).filter
        (fun m => !decide (b m < 30) && !decide (200 < b m))).length ∧
    (v.frame_count = 5 →
      (frameLoop v (analysis_limit v) (analysis_limit v) 0).examined = [0]) := by
  have h := frameLoop_total_spec v (analysis_limit v) b hv (analysis_limit v) 0
  refine ⟨rfl, by rw [h], by rw [h], by rw [h], by rw [h], ?_⟩
  intro h5
  rw [h]
  have hL : analysis_limit v = 5 := by rw [analysis_limit, h5]; omega
  rw [hL]
  show strideList 10 5 5 0 = [0]
  decide

/-- C5 witness: the 5-frame all-decodable video samples exactly frame 0. -/
theorem frame_sampler_iteration_spec_witness :
    (frameLoop vFive (analysis_limit vFive) (analysis_limit vFive) 0).examined = [0] :=
  (frame_sampler_iteration_spec vFive (fun _ => 100) (fun _ => rfl)).2.2.2.2.2 rfl

/-- C6: whenever frame sampling returns a payload, its displayed dark and
bright lists are the first 20 entries (in strictly increasing frame order)
of the full in-order qualifying lists, hence never longer than 20, while
the summary counts are the exact uncapped totals over all sampled frames. -/
theorem frame_lists_capped_counts_exact (v : Video) (r : FrameResult)
    (h : (analyze_video_frames v).2 = StageResult.ok r) :
    r.dark_frames = (frameLoop v (analysis_limit v) (analysis_limit v) 0).dark.take 20 ∧
    r.bright_frames = (frameLoop v (analysis_limit v) (analysis_limit v) 0).bright.take 20 ∧
    r.dark_frames.length ≤ 20 ∧ r.bright_frames.length ≤ 20 ∧
    r.summary_dark = (frameLoop v (analysis_limit v) (analysis_limit v) 0).dark.length ∧
    r.summary_bright = (frameLoop v (analysis_limit v) (analysis_limit v) 0).bright.length ∧
    r.summary_normal = r.normal_frames ∧
    List.Pairwise (fun p q => p.1 < q.1)
      (frameLoop v (analysis_limit v) (analysis_limit v) 0).dark ∧
    List.Pairwise (fun p q => p.1 < q.1)
      (frameLoop v (analysis_limit v) (analysis_limit v) 0).bright := by
  rw [analyze_video_frames] at h
  by_cases hfps : v.fps = 0
  · rw [if_pos hfps] at h
    exact absurd h (by simp)
  · rw [if_neg hfps] at h
    simp only [] at h
    injection h with h
    subst h
    obtain ⟨hd, hb⟩ := frameLoop_buckets_sorted v (analysis_limit v) (analysis_limit v) 0
    exact ⟨rfl, rfl, List.length_take_le _ _, List.length_take_le _ _, rfl, rfl, rfl, hd, hb⟩

/-- C6 witness: the 0-frame video's payload instantiates the caps and the
exact-count identities. -/
theorem frame_lists_capped_counts_exact_witness :
    rNone.dark_frames =
      (frameLoop vNone (analysis_limit vNone) (analysis_limit vNone) 0).dark.take 20 ∧
    rNone.summary_normal = rNone.normal_frames :=
  ⟨(frame_lists_capped_counts_exact vNone rNone rfl).1,
   (frame_lists_capped_counts_exact vNone rNone rfl).2.2.2.2.2.2.1⟩

/-- C7: (a) once a record's status is terminal (`complete` or `error: ...`)
no write of the run follows — the record observed at or after that point
never changes again; (b) in a run aborted by an exception escaping the
`try` body, the handler writes only `status = error(message)`: every
result key already written keeps exactly its value. -/
theorem progress_record_terminal_immutable :
    (∀ env : Env, ∀ i j : Nat, isTerminal ((recAt env i).status) = true → i ≤ j →
      recAt env j = recAt env i) ∧
    (∀ (env : Env) (k : Nat) (msg : String),
      (applyEvents (perform_full_analysis_raising env k msg)).status = "error: " ++ msg ∧
      (applyEvents (perform_full_analysis_raising env k msg)).results =
        (applyEvents (Event.initRecord :: (bodyEvents env).take k)).results) := by
  constructor
  · intro env i j hterm hij
    have hlen : (perform_full_analysis env).length ≤ i := by
      by_contra hlt
      push_neg at hlt
      rw [recAt_status_nonterminal env i hlt] at hterm
      cases hterm
    rw [recAt, recAt, List.take_of_length_le hlen, List.take_of_length_le (le_trans hlen hij)]
  · intro env k msg
    have hsplit : perform_full_analysis_raising env k msg =
        (Event.initRecord :: (bodyEvents env).take k) ++
          [Event.setStatus ("error: " ++ msg)] := by
      simp [perform_full_analysis_raising]
    rw [hsplit, applyEvents, List.foldl_append]
    exact ⟨rfl, rfl⟩

/-- C7 witness: the all-degraded run reaches `complete` after its 10 writes
and its record is unchanged from then on; an aborted run keeps the
`metadata` result it had already written. -/
theorem progress_record_terminal_immutable_witness :
    recAt envAllFail 11 = recAt envAllFail 10 ∧
    (applyEvents (perform_full_analysis_raising envAllFail 4 "boom")).status =
      "error: " ++ "boom" :=
  ⟨progress_record_terminal_immutable.1 envAllFail 10 11 (by decide) (by decide),
   (progress_record_terminal_immutable.2 envAllFail 4 "boom").1⟩

/-- C8: the metadata extractor never propagates an exception — a parse
exception becomes the error-shaped `{error: reason}` result; a track list
with neither a video nor an audio track yields the
`No metadata available` error record; and every missing source field of a
found block is the explicit `N/A` sentinel (with its unit suffix), keeping
the result shape stable. -/
theorem extract_metadata_soft_fail :
    (∀ e, extract_metadata (Except.error e) =
      StageResult.errorDict ("Error extracting metadata: " ++ e)) ∧
    (∀ tracks : List Track, (∀ t ∈ tracks, t = Track.general) →
      extract_metadata (Except.ok tracks) = StageResult.errorDict "No metadata available") ∧
    mkVideoBlock none none none none none none none none =
      ⟨"N/A", "N/A ms", "N/A px", "N/A px", "N/A fps", "N/A bps", "N/A", "N/A"⟩ ∧
    mkAudioBlock none none none none = ⟨"N/A", "N/A Hz", "N/A", "N/A bps"⟩ := by
  refine ⟨fun e => rfl, ?_, rfl, rfl⟩
  intro tracks htr
  have hfold : ∀ (ts : List Track) (d : MetaData), (∀ t ∈ ts, t = Track.general) →
      ts.foldl updateMeta d = d := by
    intro ts
    induction ts with
    | nil => intro d _; rfl
    | cons t ts ih =>
      intro d hall
      rw [List.foldl_cons]
      have ht : t = Track.general := hall t (List.mem_cons_self _ _)
      subst ht
      exact ih d (fun t' ht' => hall t' (List.mem_cons_of_mem _ ht'))
  rw [extract_metadata]
  rw [hfold tracks ⟨none, none⟩ htr]
  rfl

/-- C8 witness: a concrete parse exception and a video-and-audio-free track
list both produce the error records the claim describes. -/
theorem extract_metadata_soft_fail_witness :
    extract_metadata (Except.error "boom") =
      StageResult.errorDict ("Error extracting metadata: " ++ "boom") ∧
    extract_metadata (Except.ok [Track.general]) =
      StageResult.errorDict "No metadata available" :=
  ⟨extract_metadata_soft_fail.1 "boom",
   extract_metadata_soft_fail.2.1 [Track.general] (by decide)⟩

/-- C9: `GET /results/<file_id>` returns 404 for an unknown id, the results
map exactly when the record's status is `complete`, and the bare
`not_ready` marker — never any partial result data — for a record in any
other status. -/
theorem get_results_endpoint_spec (store : String → Option Record) (file_id : String) :
    (store file_id = none → get_results store file_id = ResultsResponse.notFound) ∧
    (∀ r, store file_id = some r →
      (r.status = "complete" →
        get_results store file_id = ResultsResponse.resultsMap r.results) ∧
      (r.status ≠ "complete" → get_results store file_id = ResultsResponse.notReady)) := by
  constructor
  · intro h
    simp only [get_results, h]
  · intro r h
    constructor
    · intro hc
      simp only [get_results, h, hc, if_pos]
    · intro hc
      simp only [get_results, h]
      rw [if_neg hc]

/-- C9 witness: a store with one complete and one running record answers
the three cases as specified. -/
theorem get_results_endpoint_spec_witness :
    get_results storeW "1700000000" =
      ResultsResponse.resultsMap [("metadata", Value.err "No metadata available")] ∧
    get_results storeW "1700000001" = ResultsResponse.notReady ∧
    get_results storeW "2" = ResultsResponse.notFound :=
  ⟨((get_results_endpoint_spec storeW "1700000000").2 recComplete rfl).1 rfl,
   ((get_results_endpoint_spec storeW "1700000001").2 recRunning rfl).2 (by decide),
   (get_results_endpoint_spec storeW "2").1 rfl⟩

/-- C10: every successful hash payload's `hash_breakdown` is exactly 4
chunks of 16 hex characters, and concatenating them in order reconstructs
the full 64-character hex digest. -/
theorem hash_breakdown_roundtrip (content : List Nat) :
    (hashResult content).hash_breakdown.length = 4 ∧
    (∀ c ∈ (hashResult content).hash_breakdown, c.length = 16) ∧
    (hashResult content).hash_breakdown.foldl (fun a b => a ++ b) "" =
      (hashResult content).hash := by
  have hb : (hashResult content).hash_breakdown = pySlices16 (sha256hex content) := rfl
  have hh : (hashResult content).hash = sha256hex content := rfl
  have hdata : (sha256hex content).data.length = 64 := sha256hex_length content
  rw [hb, hh, pySlices16_of_length _ (sha256hex_length content)]
  have hmkl : ∀ l : List Char, (String.mk l).length = l.length := fun l => rfl
  refine ⟨rfl, ?_, ?_⟩
  · intro c hc
    simp only [List.mem_cons, List.not_mem_nil, or_false] at hc
    rcases hc with rfl | rfl | rfl | rfl <;>
      simp [hmkl, List.length_take, List.length_drop, hdata]
  · have mkapp : ∀ a b : List Char, String.mk a ++ String.mk b = String.mk (a ++ b) :=
      fun a b => rfl
    have h0 : ("" : String) = String.mk [] := rfl
    rw [List.foldl_cons, List.foldl_cons, List.foldl_cons, List.foldl_cons, List.foldl_nil,
      h0, mkapp, mkapp, mkapp, mkapp]
    apply String.ext
    show [] ++ (sha256hex content).data.take 16 ++ ((sha256hex content).data.drop 16).take 16 ++
        ((sha256hex content).data.drop 32).take 16 ++ ((sha256hex content).data.drop 48).take 16 =
      (sha256hex content).data
    rw [List.nil_append]
    exact take_drop_reassemble _ hdata

/-- C10 witness: for the empty upload the four chunks and the
reconstruction are checked on the concrete digest. -/
theorem hash_breakdown_roundtrip_witness :
    (hashResult []).hash_breakdown.length = 4 ∧ "e3b0c44298fc1c14".length = 16 :=
  ⟨(hash_breakdown_roundtrip []).1,
   (hash_breakdown_roundtrip []).2.1 "e3b0c44298fc1c14" (by decide)⟩
